import Mathlib

/-!
# Verification of the price-alert monitoring subsystem (caster-backend)

A shallow embedding of the alert checker (`AlertCheckerService` in the
TypeScript source) together with the slices of its collaborators that the
checker exercises: the alert store (`DatabaseService`: `getActiveAlerts`,
`updateAlert`, `getUserByWallet`), the market price oracle
(`PolymarketService.getMarketById`) and the notifier
(`EmailService.sendPriceAlert`).

Modelling conventions:
* Prices are rationals (the source uses JS numbers; every comparison the
  checker performs is exact at the granularity the claims use).
* Each collaborator call site is parameterised by an environment `Env`
  whose raw outcomes include a `thrown` case, modelling a JS exception
  escaping the underlying HTTP/database client.  Every service wrapper in
  the source catches internally and maps errors to `null` / `[]` / `false`;
  the embedded wrappers reproduce exactly those catch branches.
* The checker threads a `CycleState`: the persisted rows of the
  `price_alerts` table plus a trace of the collaborator calls issued
  (oracle fetches, store updates, user lookups, email send attempts).
* `new Date().toISOString()` is modelled by the single cycle timestamp
  `Env.now` (the spec's "now").
-/

namespace Caster

/-- Lifecycle status of an alert (`'active' | 'triggered' | 'cancelled'`). -/
inductive AlertStatus
| active
| triggered
| cancelled
deriving DecidableEq, Repr

/-- The `PriceAlert` row (src/types: interface PriceAlert).  The trigger
condition is kept as a raw string because the checker's evaluation has a
defensive default branch for values outside the declared union type. -/
structure PriceAlert where
  id : String
  user_wallet : String
  market_id : String
  market_question : String
  target_price : ℚ
  condition : String
  status : AlertStatus
  created_at : String
  triggered_at : Option String
  last_checked_at : Option String
  notification_sent : Bool
  notes : Option String
deriving DecidableEq, Repr

/-- The projection of the `Market` object that the checker reads
(`market.question` for logging, `market.current_price` for evaluation). -/
structure Market where
  question : String
  current_price : ℚ
deriving DecidableEq, Repr

/-- The projection of the `User` row that `sendNotification` reads.  The
optional `email_verified?: boolean` collapses to `Bool`: the source guard
`if (!user.email_verified)` treats `undefined` and `false` identically. -/
structure User where
  wallet_address : String
  email : Option String
  email_verified : Bool
deriving DecidableEq, Repr

/-- The object literal passed to `emailService.sendPriceAlert`. -/
structure EmailPayload where
  marketQuestion : String
  targetPrice : ℚ
  currentPrice : ℚ
  condition : String
  marketId : String
deriving DecidableEq, Repr

/-- The `Partial<PriceAlert>` updates the checker issues.  Only the four
fields the checker ever writes are modelled; `none` means the field is
absent from the update object. -/
structure AlertUpdate where
  status : Option AlertStatus
  triggered_at : Option String
  last_checked_at : Option String
  notification_sent : Option Bool
deriving DecidableEq, Repr

/-- One collaborator call issued by the checker during a cycle. -/
inductive Event
| oracleCall (marketId : String)
| storeUpdate (alertId : String) (updates : AlertUpdate)
| userFetch (wallet : String)
| emailAttempt (address : String) (payload : EmailPayload)
deriving DecidableEq, Repr

/-- Outcome of one raw supabase mutation: the request may throw (JS
exception caught by the service wrapper), report an error object, or
succeed. -/
inductive DbOutcome
| thrown
| errored
| ok
deriving DecidableEq, Repr

/-- The environment of one check cycle: the cycle timestamp and the raw
outcomes of every collaborator call.  `Except.error ()` models a thrown
JS exception escaping the underlying client; each service wrapper below
catches it exactly where the source does. -/
structure Env where
  now : String
  listFails : Bool
  getMarketRaw : String → Except Unit Market
  rawUpdateAlert : String → AlertUpdate → DbOutcome
  getUserRaw : String → Except Unit (Option User)
  sendEmailRaw : String → EmailPayload → Except Unit Bool

/-- State threaded through one check cycle: the rows of the
`price_alerts` table plus the trace of collaborator calls issued. -/
structure CycleState where
  store : List PriceAlert
  events : List Event
deriving Repr

/-- `DatabaseService.getActiveAlerts`: selects the rows with
`status = 'active'`; any supabase error or thrown exception is caught and
yields `[]` (`listFails`).  (The source additionally orders by
`last_checked_at`; no claim depends on the order.) -/
def getActiveAlerts (env : Env) (store : List PriceAlert) : List PriceAlert :=
  if env.listFails then [] else store.filter (fun a => decide (a.status = AlertStatus.active))

/-- Applying an update object to a row (the supabase `update(updates)`
semantics: absent fields are left unchanged). -/
def applyFields (a : PriceAlert) (u : AlertUpdate) : PriceAlert :=
  { a with
    status := u.status.getD a.status
    triggered_at := match u.triggered_at with
      | some t => some t
      | none => a.triggered_at
    last_checked_at := match u.last_checked_at with
      | some t => some t
      | none => a.last_checked_at
    notification_sent := u.notification_sent.getD a.notification_sent }

/-- `DatabaseService.updateAlert`: issues the mutation (recorded in the
trace), returns the updated row or `null`.  On a supabase error object or
a thrown exception the source returns `null` and no row changes; on
success the rows matching the id are updated and the first one returned
(`.select().single()`). -/
def updateAlert (env : Env) (s : CycleState) (alertId : String) (updates : AlertUpdate) :
    Option PriceAlert × CycleState :=
  let s1 : CycleState := { s with events := s.events ++ [Event.storeUpdate alertId updates] }
  match env.rawUpdateAlert alertId updates with
  | DbOutcome.thrown => (none, s1)
  | DbOutcome.errored => (none, s1)
  | DbOutcome.ok =>
      let store1 := s1.store.map (fun a => if a.id = alertId then applyFields a updates else a)
      (store1.find? (fun a => decide (a.id = alertId)), { s1 with store := store1 })

/-- `DatabaseService.getUserByWallet`: a thrown exception is caught and
yields `null`; otherwise the row (or `null` when absent / on error). -/
def getUserByWallet (env : Env) (wallet : String) : Option User :=
  match env.getUserRaw wallet with
  | Except.error _ => none
  | Except.ok r => r

/-- `PolymarketService.getMarketById`: any axios failure (including HTTP
404 for an unknown market) throws, is caught, and yields `null`. -/
def getMarketById (env : Env) (marketId : String) : Option Market :=
  match env.getMarketRaw marketId with
  | Except.error _ => none
  | Except.ok m => some m

/-- `EmailService.sendPriceAlert`: a thrown exception or error object
yields `false`; otherwise the reported delivery flag. -/
def sendPriceAlert (env : Env) (address : String) (payload : EmailPayload) : Bool :=
  match env.sendEmailRaw address payload with
  | Except.error _ => false
  | Except.ok b => b

/-- `AlertCheckerService.shouldTriggerAlert`: pure trigger evaluation.
`above`: current ≥ target; `below`: current ≤ target; `equals`: within
absolute tolerance 0.01; any other condition string: `false`. -/
def shouldTriggerAlert (alert : PriceAlert) (currentPrice : ℚ) : Bool :=
  if alert.condition = "above" then
    decide (currentPrice ≥ alert.target_price)
  else if alert.condition = "below" then
    decide (currentPrice ≤ alert.target_price)
  else if alert.condition = "equals" then
    decide (|currentPrice - alert.target_price| ≤ 1 / 100)
  else
    false

/-- The update object `triggerAlert` sends to the store. -/
def triggeredUpdate (now : String) : AlertUpdate :=
  { status := some AlertStatus.triggered
    triggered_at := some now
    last_checked_at := some now
    notification_sent := some true }

/-- The update object the non-triggered branch sends to the store:
only `last_checked_at`. -/
def lastCheckedUpdate (now : String) : AlertUpdate :=
  { status := none
    triggered_at := none
    last_checked_at := some now
    notification_sent := none }

/-- The payload `sendNotification` passes to the notifier. -/
def payloadOf (alert : PriceAlert) (currentPrice : ℚ) : EmailPayload :=
  { marketQuestion := alert.market_question
    targetPrice := alert.target_price
    currentPrice := currentPrice
    condition := alert.condition
    marketId := alert.market_id }

/-- `AlertCheckerService.sendNotification`: looks up the owner; aborts
silently when the user record is missing, has no email, or the email is
unverified; otherwise invokes the notifier (result only logged).  The
surrounding try/catch never fires because every collaborator wrapper is
total. -/
def sendNotification (env : Env) (alert : PriceAlert) (currentPrice : ℚ) (s : CycleState) :
    CycleState :=
  let s1 : CycleState := { s with events := s.events ++ [Event.userFetch alert.user_wallet] }
  match getUserByWallet env alert.user_wallet with
  | none => s1
  | some user =>
      match user.email with
      | none => s1
      | some address =>
          if user.email_verified then
            let s2 : CycleState :=
              { s1 with events := s1.events ++ [Event.emailAttempt address (payloadOf alert currentPrice)] }
            let _emailSent := sendPriceAlert env address (payloadOf alert currentPrice)
            s2
          else s1

/-- `AlertCheckerService.triggerAlert`: unconditionally issues the
status update (its result is ignored), then attempts the notification.
The try/catch in the source never fires (total wrappers). -/
def triggerAlert (env : Env) (alert : PriceAlert) (currentPrice : ℚ) (s : CycleState) :
    CycleState :=
  let s1 := (updateAlert env s alert.id (triggeredUpdate env.now)).2
  sendNotification env alert currentPrice s1

/-- Body of the per-alert loop in `checkMarketAlerts`. -/
def checkOneAlert (env : Env) (currentPrice : ℚ) (s : CycleState) (alert : PriceAlert) :
    CycleState :=
  if shouldTriggerAlert alert currentPrice then
    triggerAlert env alert currentPrice s
  else
    (updateAlert env s alert.id (lastCheckedUpdate env.now)).2

/-- One step of the `reduce` in `groupAlertsByMarket`: push the alert
onto its market's bucket, creating the bucket on first occurrence. -/
def insertAlert : List (String × List PriceAlert) → PriceAlert → List (String × List PriceAlert)
  | [], a => [(a.market_id, [a])]
  | (m, l) :: rest, a =>
      if m = a.market_id then (m, l ++ [a]) :: rest
      else (m, l) :: insertAlert rest a

/-- `AlertCheckerService.groupAlertsByMarket`: partition the alerts into
buckets keyed by `market_id` (JS object modelled as an association list
in key-insertion order). -/
def groupAlertsByMarket (alerts : List PriceAlert) : List (String × List PriceAlert) :=
  alerts.foldl insertAlert []

/-- `AlertCheckerService.checkMarketAlerts`: fetch the market once; on
`null` skip the whole group; otherwise evaluate every alert of the group
against the same fetched price.  The catch at the end of the source never
fires (total wrappers). -/
def checkMarketAlerts (env : Env) (marketId : String) (alerts : List PriceAlert)
    (s : CycleState) : CycleState :=
  let s1 : CycleState := { s with events := s.events ++ [Event.oracleCall marketId] }
  match getMarketById env marketId with
  | none => s1
  | some market =>
      alerts.foldl (checkOneAlert env market.current_price) s1

/-- `AlertCheckerService.checkAlerts`: one check cycle over the given
store contents. -/
def checkAlerts (env : Env) (store : List PriceAlert) : CycleState :=
  let s0 : CycleState := { store := store, events := [] }
  let activeAlerts := getActiveAlerts env store
  if activeAlerts.length = 0 then s0
  else
    (groupAlertsByMarket activeAlerts).foldl
      (fun s g => checkMarketAlerts env g.1 g.2 s) s0

/-! ## Pure characterisations of one cycle

The checker's control flow never reads the store after the initial
`getActiveAlerts` and never reads the event trace, so the final trace and
the final store of a cycle are pure functions of the environment and the
initial store.  The functions below compute them directly; the bridge
theorems prove them equal to the threaded `checkAlerts`. -/

/-- The update object a given alert elicits once its market price is known. -/
def alertUpdateOf (env : Env) (alert : PriceAlert) (currentPrice : ℚ) : AlertUpdate :=
  if shouldTriggerAlert alert currentPrice then triggeredUpdate env.now
  else lastCheckedUpdate env.now

/-- The collaborator calls `sendNotification` issues for one alert. -/
def notificationEvents (env : Env) (alert : PriceAlert) (currentPrice : ℚ) : List Event :=
  Event.userFetch alert.user_wallet ::
    (match getUserByWallet env alert.user_wallet with
     | none => []
     | some user =>
         match user.email with
         | none => []
         | some address =>
             if user.email_verified then [Event.emailAttempt address (payloadOf alert currentPrice)]
             else [])

/-- The collaborator calls issued while processing one alert of a group. -/
def alertEvents (env : Env) (alert : PriceAlert) (currentPrice : ℚ) : List Event :=
  if shouldTriggerAlert alert currentPrice then
    Event.storeUpdate alert.id (triggeredUpdate env.now) :: notificationEvents env alert currentPrice
  else
    [Event.storeUpdate alert.id (lastCheckedUpdate env.now)]

/-- The collaborator calls issued while processing one market group. -/
def groupEvents (env : Env) (marketId : String) (alerts : List PriceAlert) : List Event :=
  Event.oracleCall marketId ::
    (match getMarketById env marketId with
     | none => []
     | some market => (alerts.map (fun a => alertEvents env a market.current_price)).flatten)

/-- The full collaborator-call trace of one cycle. -/
def cycleEvents (env : Env) (store : List PriceAlert) : List Event :=
  let activeAlerts := getActiveAlerts env store
  if activeAlerts.length = 0 then []
  else ((groupAlertsByMarket activeAlerts).map (fun g => groupEvents env g.1 g.2)).flatten

/-- Effect of one issued store update on the table rows: on success every
row matching the id is updated; a supabase error or a thrown exception
changes nothing. -/
def applyAction (env : Env) (st : List PriceAlert) (alertId : String) (u : AlertUpdate) :
    List PriceAlert :=
  match env.rawUpdateAlert alertId u with
  | DbOutcome.ok => st.map (fun a => if a.id = alertId then applyFields a u else a)
  | _ => st

/-- Store effect of processing one alert of a group. -/
def alertStoreStep (env : Env) (currentPrice : ℚ) (st : List PriceAlert) (alert : PriceAlert) :
    List PriceAlert :=
  applyAction env st alert.id (alertUpdateOf env alert currentPrice)

/-- Store effect of processing one market group. -/
def groupStore (env : Env) (marketId : String) (alerts : List PriceAlert)
    (st : List PriceAlert) : List PriceAlert :=
  match getMarketById env marketId with
  | none => st
  | some market => alerts.foldl (alertStoreStep env market.current_price) st

/-- The table rows after one cycle. -/
def cycleStore (env : Env) (store : List PriceAlert) : List PriceAlert :=
  let activeAlerts := getActiveAlerts env store
  if activeAlerts.length = 0 then store
  else (groupAlertsByMarket activeAlerts).foldl (fun st g => groupStore env g.1 g.2 st) store

/-- The update objects a trace carries for a given alert id, in order. -/
def updatesFor (tr : List Event) (alertId : String) : List AlertUpdate :=
  tr.filterMap (fun e =>
    match e with
    | Event.storeUpdate i u => if i = alertId then some u else none
    | _ => none)

/-- The market ids of the oracle calls a trace carries, in order. -/
def oracleCallsOf (tr : List Event) : List String :=
  tr.filterMap (fun e =>
    match e with
    | Event.oracleCall m => some m
    | _ => none)

/-- First row of the table with the given id (supabase `.eq('id', x)`
point read; ids are unique in the real table). -/
def lookupById (store : List PriceAlert) (alertId : String) : Option PriceAlert :=
  store.find? (fun a => decide (a.id = alertId))

/-! ## Scheduler lifecycle and status (`start` / `stop` / `getStatus`) -/

/-- `POLL_INTERVAL = 30000` milliseconds. -/
def POLL_INTERVAL : Nat := 30000

/-- The mutable fields of `AlertCheckerService` that the lifecycle
methods touch: `isRunning` and whether `checkInterval` holds a live
timer. -/
structure CheckerState where
  isRunning : Bool
  hasInterval : Bool
deriving DecidableEq, Repr

/-- `start()`: a no-op while running; otherwise marks the service
running, performs one immediate cycle (which never touches these
fields), and arms the 30-second recurring timer. -/
def start (s : CheckerState) : CheckerState :=
  if s.isRunning then s
  else { isRunning := true, hasInterval := true }

/-- `stop()`: clears the timer (if any) and marks the service stopped. -/
def stop (_s : CheckerState) : CheckerState :=
  { isRunning := false, hasInterval := false }

/-- The externally visible lifecycle happenings: a `start()` call, a
`stop()` call, or the timer firing one check cycle. -/
inductive SchedEvent
| startCall
| stopCall
| timerTick
deriving DecidableEq, Repr

/-- One lifecycle step.  A timer tick runs `checkAlerts`, which reads and
writes only collaborator state, never `isRunning` or the timer — in
particular a failed cycle (every failure is caught inside the cycle)
leaves the scheduler untouched. -/
def schedStep (s : CheckerState) (e : SchedEvent) : CheckerState :=
  match e with
  | SchedEvent.startCall => start s
  | SchedEvent.stopCall => stop s
  | SchedEvent.timerTick => s

/-- A sequence of lifecycle happenings. -/
def schedRun (s : CheckerState) (es : List SchedEvent) : CheckerState :=
  es.foldl schedStep s

/-- A JSON value of the status object (`getStatus` returns a plain JS
object; a JS object is a finite map from string keys to values, modelled
as an association list in insertion order). -/
inductive StatusValue
| bool (b : Bool)
| num (n : Nat)
| str (s : String)
deriving DecidableEq, Repr

/-- `AlertCheckerService.getStatus`: returns
`{ running: this.isRunning, interval: this.POLL_INTERVAL, message: ... }`. -/
def getStatus (s : CheckerState) : List (String × StatusValue) :=
  [ ("running", StatusValue.bool s.isRunning),
    ("interval", StatusValue.num POLL_INTERVAL),
    ("message", StatusValue.str
      (if s.isRunning then
        "Checking alerts every " ++ toString (POLL_INTERVAL / 1000) ++ " seconds"
       else "Alert checker is stopped")) ]

/-! ## Bridge: the threaded checker computes the pure trace and store -/

theorem updateAlert_snd (env : Env) (s : CycleState) (i : String) (u : AlertUpdate) :
    (updateAlert env s i u).2 =
      { store := applyAction env s.store i u
        events := s.events ++ [Event.storeUpdate i u] } := by
  unfold updateAlert applyAction
  cases h : env.rawUpdateAlert i u <;> simp [h]

theorem applyFields_id (a : PriceAlert) (u : AlertUpdate) : (applyFields a u).id = a.id := rfl

theorem sendNotification_eq (env : Env) (a : PriceAlert) (p : ℚ) (s : CycleState) :
    sendNotification env a p s =
      { store := s.store, events := s.events ++ notificationEvents env a p } := by
  unfold sendNotification notificationEvents
  cases hu : getUserByWallet env a.user_wallet with
  | none => simp
  | some user =>
      cases he : user.email with
      | none => simp [he]
      | some address =>
          cases hv : user.email_verified <;> simp [he, hv]

theorem triggerAlert_eq (env : Env) (a : PriceAlert) (p : ℚ) (s : CycleState) :
    triggerAlert env a p s =
      { store := applyAction env s.store a.id (triggeredUpdate env.now)
        events := s.events ++
          (Event.storeUpdate a.id (triggeredUpdate env.now) :: notificationEvents env a p) } := by
  unfold triggerAlert
  rw [updateAlert_snd, sendNotification_eq]
  simp

theorem checkOneAlert_eq (env : Env) (p : ℚ) (s : CycleState) (a : PriceAlert) :
    checkOneAlert env p s a =
      { store := alertStoreStep env p s.store a
        events := s.events ++ alertEvents env a p } := by
  unfold checkOneAlert alertStoreStep alertEvents alertUpdateOf
  by_cases ht : shouldTriggerAlert a p
  · simp [ht, triggerAlert_eq]
  · simp [ht, updateAlert_snd]

theorem foldl_checkOneAlert (env : Env) (p : ℚ) (as : List PriceAlert) (s : CycleState) :
    as.foldl (checkOneAlert env p) s =
      { store := as.foldl (alertStoreStep env p) s.store
        events := s.events ++ (as.map (fun a => alertEvents env a p)).flatten } := by
  induction as generalizing s with
  | nil => simp
  | cons a as ih =>
      simp only [List.foldl_cons, List.map_cons, List.flatten_cons]
      rw [checkOneAlert_eq, ih]
      simp

theorem checkMarketAlerts_eq (env : Env) (m : String) (as : List PriceAlert) (s : CycleState) :
    checkMarketAlerts env m as s =
      { store := groupStore env m as s.store
        events := s.events ++ groupEvents env m as } := by
  unfold checkMarketAlerts groupStore groupEvents
  cases h : getMarketById env m with
  | none => simp
  | some market => simp [foldl_checkOneAlert]

theorem foldl_checkMarketAlerts (env : Env) (G : List (String × List PriceAlert))
    (s : CycleState) :
    G.foldl (fun s g => checkMarketAlerts env g.1 g.2 s) s =
      { store := G.foldl (fun st g => groupStore env g.1 g.2 st) s.store
        events := s.events ++ (G.map (fun g => groupEvents env g.1 g.2)).flatten } := by
  induction G generalizing s with
  | nil => simp
  | cons g G ih =>
      simp only [List.foldl_cons, List.map_cons, List.flatten_cons]
      rw [checkMarketAlerts_eq, ih]
      simp

theorem checkAlerts_eq (env : Env) (store : List PriceAlert) :
    checkAlerts env store =
      { store := cycleStore env store, events := cycleEvents env store } := by
  unfold checkAlerts cycleStore cycleEvents
  by_cases h : (getActiveAlerts env store).length = 0
  · simp [h]
  · simp only [h, if_false]
    rw [foldl_checkMarketAlerts]
    simp

/-! ## Grouping lemmas -/

theorem insertAlert_keys (acc : List (String × List PriceAlert)) (a : PriceAlert) :
    (insertAlert acc a).map Prod.fst =
      if a.market_id ∈ acc.map Prod.fst then acc.map Prod.fst
      else acc.map Prod.fst ++ [a.market_id] := by
  induction acc with
  | nil => simp [insertAlert]
  | cons g rest ih =>
      obtain ⟨m, l⟩ := g
      by_cases hm : m = a.market_id
      · simp [insertAlert, hm]
      · by_cases hmem : a.market_id ∈ rest.map Prod.fst
        · simp [insertAlert, hm, ih, hmem, Ne.symm hm]
        · simp [insertAlert, hm, ih, hmem, Ne.symm hm]

theorem insertAlert_keyed (acc : List (String × List PriceAlert)) (a : PriceAlert)
    (h : ∀ g ∈ acc, ∀ b ∈ g.2, b.market_id = g.1) :
    ∀ g ∈ insertAlert acc a, ∀ b ∈ g.2, b.market_id = g.1 := by
  induction acc with
  | nil =>
      intro g hg b hb
      simp [insertAlert] at hg
      subst hg
      simp at hb
      subst hb
      rfl
  | cons g0 rest ih =>
      obtain ⟨m, l⟩ := g0
      by_cases hm : m = a.market_id
      · intro g hg b hb
        simp [insertAlert, hm] at hg
        rcases hg with hg | hg
        · subst hg
          simp at hb
          rcases hb with hb | hb
          · exact h (a.market_id, l) (by simp [hm]) b hb
          · subst hb; rfl
        · exact h g (by simp [hg]) b hb
      · intro g hg b hb
        simp only [insertAlert, if_neg hm, List.mem_cons] at hg
        rcases hg with hg | hg
        · subst hg
          exact h (m, l) (by simp) b hb
        · exact ih (fun g' hg' => h g' (by simp [hg'])) g hg b hb

theorem insertAlert_flatten_perm (acc : List (String × List PriceAlert)) (a : PriceAlert) :
    ((insertAlert acc a).map Prod.snd).flatten.Perm ((acc.map Prod.snd).flatten ++ [a]) := by
  induction acc with
  | nil => simp [insertAlert]
  | cons g rest ih =>
      obtain ⟨m, l⟩ := g
      by_cases hm : m = a.market_id
      · simp only [insertAlert, if_pos hm, List.map_cons, List.flatten_cons]
        have h1 : (l ++ [a]) ++ (rest.map Prod.snd).flatten =
            l ++ ([a] ++ (rest.map Prod.snd).flatten) := by simp
        have h2 : (l ++ (rest.map Prod.snd).flatten) ++ [a] =
            l ++ ((rest.map Prod.snd).flatten ++ [a]) := by simp
        rw [h1, h2]
        exact List.Perm.append_left l List.perm_append_comm
      · simp only [insertAlert, if_neg hm, List.map_cons, List.flatten_cons]
        have h2 : (l ++ (rest.map Prod.snd).flatten) ++ [a] =
            l ++ ((rest.map Prod.snd).flatten ++ [a]) := by simp
        rw [h2]
        exact List.Perm.append_left l ih

theorem foldl_insertAlert_flatten_perm (as : List PriceAlert)
    (acc : List (String × List PriceAlert)) :
    ((as.foldl insertAlert acc).map Prod.snd).flatten.Perm ((acc.map Prod.snd).flatten ++ as) := by
  induction as generalizing acc with
  | nil => simp
  | cons a as ih =>
      simp only [List.foldl_cons]
      refine (ih (insertAlert acc a)).trans ?_
      refine ((insertAlert_flatten_perm acc a).append_right as).trans ?_
      simp

/-- The grouping step loses no alert and duplicates none. -/
theorem groupAlertsByMarket_flatten_perm (as : List PriceAlert) :
    ((groupAlertsByMarket as).map Prod.snd).flatten.Perm as := by
  simpa using foldl_insertAlert_flatten_perm as []

/-- Every alert of a group carries the group's market id. -/
theorem groupAlertsByMarket_keyed (as : List PriceAlert) :
    ∀ g ∈ groupAlertsByMarket as, ∀ b ∈ g.2, b.market_id = g.1 := by
  have main : ∀ (l : List PriceAlert) (acc : List (String × List PriceAlert)),
      (∀ g ∈ acc, ∀ b ∈ g.2, b.market_id = g.1) →
      ∀ g ∈ l.foldl insertAlert acc, ∀ b ∈ g.2, b.market_id = g.1 := by
    intro l
    induction l with
    | nil => intro acc h; exact h
    | cons a l ih =>
        intro acc h
        exact ih (insertAlert acc a) (insertAlert_keyed acc a h)
  exact main as [] (by simp)

theorem foldl_insertAlert_keys_nodup (as : List PriceAlert)
    (acc : List (String × List PriceAlert)) (h : (acc.map Prod.fst).Nodup) :
    ((as.foldl insertAlert acc).map Prod.fst).Nodup := by
  induction as generalizing acc with
  | nil => exact h
  | cons a as ih =>
      simp only [List.foldl_cons]
      refine ih (insertAlert acc a) ?_
      rw [insertAlert_keys]
      by_cases hm : a.market_id ∈ acc.map Prod.fst
      · simpa [hm] using h
      · simp [hm, List.nodup_append, h]

/-- The group keys carry no duplicates: one group per distinct market. -/
theorem groupAlertsByMarket_keys_nodup (as : List PriceAlert) :
    ((groupAlertsByMarket as).map Prod.fst).Nodup :=
  foldl_insertAlert_keys_nodup as [] (by simp)

theorem foldl_insertAlert_keys_mem (as : List PriceAlert)
    (acc : List (String × List PriceAlert)) (m : String) :
    m ∈ (as.foldl insertAlert acc).map Prod.fst ↔
      m ∈ acc.map Prod.fst ∨ m ∈ as.map (fun a => a.market_id) := by
  induction as generalizing acc with
  | nil => simp
  | cons a as ih =>
      simp only [List.foldl_cons, ih, insertAlert_keys, List.map_cons, List.mem_cons]
      by_cases hm : a.market_id ∈ acc.map Prod.fst
      · simp only [if_pos hm]
        constructor
        · rintro (h | h)
          · exact Or.inl h
          · exact Or.inr (Or.inr h)
        · rintro (h | h | h)
          · exact Or.inl h
          · subst h; exact Or.inl hm
          · exact Or.inr h
      · simp only [if_neg hm, List.mem_append, List.mem_singleton]
        tauto

/-- The group keys are exactly the market ids occurring among the alerts. -/
theorem groupAlertsByMarket_keys_mem (as : List PriceAlert) (m : String) :
    m ∈ (groupAlertsByMarket as).map Prod.fst ↔ m ∈ as.map (fun a => a.market_id) := by
  simpa [groupAlertsByMarket] using foldl_insertAlert_keys_mem as [] m

/-- The group keys are a permutation of the deduplicated market ids. -/
theorem groupAlertsByMarket_keys_perm_dedup (as : List PriceAlert) :
    ((groupAlertsByMarket as).map Prod.fst).Perm (as.map (fun a => a.market_id)).dedup := by
  refine (List.perm_ext_iff_of_nodup (groupAlertsByMarket_keys_nodup as)
    (List.nodup_dedup _)).mpr ?_
  intro m
  rw [List.mem_dedup]
  exact groupAlertsByMarket_keys_mem as m

/-- Locate the group of a member alert inside the groups list. -/
theorem exists_group_split (as : List PriceAlert) (a : PriceAlert) (ha : a ∈ as) :
    ∃ G₁ l G₂, groupAlertsByMarket as = G₁ ++ (a.market_id, l) :: G₂ ∧ a ∈ l := by
  have hmem : a ∈ ((groupAlertsByMarket as).map Prod.snd).flatten :=
    (groupAlertsByMarket_flatten_perm as).mem_iff.mpr ha
  have main : ∀ (G : List (String × List PriceAlert)),
      (∀ g ∈ G, ∀ b ∈ g.2, b.market_id = g.1) →
      a ∈ (G.map Prod.snd).flatten →
      ∃ G₁ l G₂, G = G₁ ++ (a.market_id, l) :: G₂ ∧ a ∈ l := by
    intro G
    induction G with
    | nil => intro _ h; simp at h
    | cons g G ih =>
        intro hk h
        simp only [List.map_cons, List.flatten_cons, List.mem_append] at h
        rcases h with h | h
        · refine ⟨[], g.2, G, ?_, h⟩
          simp [hk g (by simp) a h]
        · obtain ⟨G₁, l, G₂, hG, hl⟩ := ih (fun g' hg' => hk g' (by simp [hg'])) h
          exact ⟨g :: G₁, l, G₂, by simp [hG], hl⟩
  exact main _ (groupAlertsByMarket_keyed as) hmem

/-! ## Trace bookkeeping lemmas -/

theorem updatesFor_append (t1 t2 : List Event) (x : String) :
    updatesFor (t1 ++ t2) x = updatesFor t1 x ++ updatesFor t2 x := by
  simp [updatesFor]

theorem updatesFor_nil (x : String) : updatesFor [] x = [] := rfl

theorem updatesFor_notificationEvents (env : Env) (b : PriceAlert) (p : ℚ) (x : String) :
    updatesFor (notificationEvents env b p) x = [] := by
  unfold notificationEvents updatesFor
  cases getUserByWallet env b.user_wallet with
  | none => simp
  | some user =>
      cases he : user.email with
      | none => simp [he]
      | some address => cases hv : user.email_verified <;> simp [he, hv]

theorem updatesFor_alertEvents_self (env : Env) (a : PriceAlert) (p : ℚ) :
    updatesFor (alertEvents env a p) a.id = [alertUpdateOf env a p] := by
  unfold alertEvents alertUpdateOf
  by_cases ht : shouldTriggerAlert a p
  · have := updatesFor_notificationEvents env a p a.id
    simp only [ht, if_true]
    simp [updatesFor] at this ⊢
    exact this
  · simp [ht, updatesFor]

theorem updatesFor_alertEvents_ne (env : Env) (b : PriceAlert) (p : ℚ) (x : String)
    (hb : b.id ≠ x) : updatesFor (alertEvents env b p) x = [] := by
  unfold alertEvents
  by_cases ht : shouldTriggerAlert b p
  · have := updatesFor_notificationEvents env b p x
    simp only [ht, if_true]
    simp [updatesFor, hb] at this ⊢
    exact this
  · simp [ht, updatesFor, hb]

theorem updatesFor_flatten (L : List (List Event)) (x : String) :
    updatesFor L.flatten x = (L.map (fun t => updatesFor t x)).flatten := by
  induction L with
  | nil => rfl
  | cons t L ih => simp [updatesFor_append, ih]

theorem updatesFor_alertsEvents_nil (env : Env) (l : List PriceAlert) (p : ℚ) (x : String)
    (h : ∀ b ∈ l, b.id ≠ x) :
    updatesFor ((l.map (fun b => alertEvents env b p)).flatten) x = [] := by
  induction l with
  | nil => rfl
  | cons b l ih =>
      simp only [List.map_cons, List.flatten_cons, updatesFor_append]
      rw [updatesFor_alertEvents_ne env b p x (h b (by simp)),
        ih (fun b' hb' => h b' (by simp [hb']))]
      rfl

theorem updatesFor_groupEvents_nil (env : Env) (m : String) (l : List PriceAlert) (x : String)
    (h : ∀ b ∈ l, b.id ≠ x) : updatesFor (groupEvents env m l) x = [] := by
  unfold groupEvents
  cases hm : getMarketById env m with
  | none => simp [updatesFor]
  | some market =>
      have := updatesFor_alertsEvents_nil env l market.current_price x h
      simp only [updatesFor] at this ⊢
      simp [this]

theorem updatesFor_groupsEvents_nil (env : Env) (G : List (String × List PriceAlert)) (x : String)
    (h : ∀ g ∈ G, ∀ b ∈ g.2, b.id ≠ x) :
    updatesFor ((G.map (fun g => groupEvents env g.1 g.2)).flatten) x = [] := by
  induction G with
  | nil => rfl
  | cons g G ih =>
      simp only [List.map_cons, List.flatten_cons, updatesFor_append]
      rw [updatesFor_groupEvents_nil env g.1 g.2 x (h g (by simp)),
        ih (fun g' hg' => h g' (by simp [hg']))]
      rfl

theorem oracleCallsOf_append (t1 t2 : List Event) :
    oracleCallsOf (t1 ++ t2) = oracleCallsOf t1 ++ oracleCallsOf t2 := by
  simp [oracleCallsOf]

theorem oracleCallsOf_notificationEvents (env : Env) (b : PriceAlert) (p : ℚ) :
    oracleCallsOf (notificationEvents env b p) = [] := by
  unfold notificationEvents oracleCallsOf
  cases getUserByWallet env b.user_wallet with
  | none => simp
  | some user =>
      cases he : user.email with
      | none => simp [he]
      | some address => cases hv : user.email_verified <;> simp [he, hv]

theorem oracleCallsOf_alertEvents (env : Env) (b : PriceAlert) (p : ℚ) :
    oracleCallsOf (alertEvents env b p) = [] := by
  unfold alertEvents
  by_cases ht : shouldTriggerAlert b p
  · have := oracleCallsOf_notificationEvents env b p
    simp only [ht, if_true]
    simp [oracleCallsOf] at this ⊢
    exact this
  · simp [ht, oracleCallsOf]

theorem oracleCallsOf_groupEvents (env : Env) (m : String) (l : List PriceAlert) :
    oracleCallsOf (groupEvents env m l) = [m] := by
  unfold groupEvents
  cases hm : getMarketById env m with
  | none => simp [oracleCallsOf]
  | some market =>
      have : oracleCallsOf ((l.map (fun b => alertEvents env b market.current_price)).flatten)
          = [] := by
        induction l with
        | nil => rfl
        | cons b l ih =>
            simp only [List.map_cons, List.flatten_cons, oracleCallsOf_append, ih,
              oracleCallsOf_alertEvents]
            rfl
      simp only [oracleCallsOf] at this ⊢
      simp [this]

/-- The oracle calls of one cycle: exactly the group keys, in order. -/
theorem oracleCallsOf_cycleEvents (env : Env) (store : List PriceAlert) :
    oracleCallsOf (cycleEvents env store) =
      (groupAlertsByMarket (getActiveAlerts env store)).map Prod.fst := by
  unfold cycleEvents
  by_cases h : (getActiveAlerts env store).length = 0
  · have h' := List.length_eq_zero.mp h
    simp [h, h', oracleCallsOf, groupAlertsByMarket]
  · rw [if_neg h]
    generalize groupAlertsByMarket (getActiveAlerts env store) = G
    induction G with
    | nil => rfl
    | cons g G ih =>
        simp only [List.map_cons, List.flatten_cons, oracleCallsOf_append,
          oracleCallsOf_groupEvents, ih]
        rfl

theorem mem_of_mem_oracleCallsOf (tr : List Event) (m : String)
    (h : m ∈ oracleCallsOf tr) : Event.oracleCall m ∈ tr := by
  unfold oracleCallsOf at h
  rw [List.mem_filterMap] at h
  obtain ⟨e, he, hm⟩ := h
  cases e <;> simp at hm
  subst hm
  exact he

/-! ## Store-effect lemmas -/

theorem lookupById_eq_some_id (store : List PriceAlert) (x : String) (r : PriceAlert)
    (h : lookupById store x = some r) : r.id = x := by
  unfold lookupById at h
  have := List.find?_some h
  simpa using this

theorem lookupById_map_id_preserved (g : PriceAlert → PriceAlert)
    (hg : ∀ r, (g r).id = r.id) (st : List PriceAlert) (x : String) :
    lookupById (st.map g) x = (lookupById st x).map g := by
  unfold lookupById
  induction st with
  | nil => rfl
  | cons r st ih =>
      simp only [List.map_cons, List.find?_cons]
      rw [hg r]
      by_cases h : r.id = x
      · simp [h]
      · simp only [h, decide_False]
        exact ih

theorem lookupById_applyAction_ne (env : Env) (st : List PriceAlert) (i : String)
    (u : AlertUpdate) (x : String) (hx : i ≠ x) :
    lookupById (applyAction env st i u) x = lookupById st x := by
  unfold applyAction
  cases h : env.rawUpdateAlert i u
  · rfl
  · rfl
  · rw [lookupById_map_id_preserved (fun a => if a.id = i then applyFields a u else a)
      (fun r => by by_cases hr : r.id = i <;> simp [hr, applyFields_id])]
    cases hl : lookupById st x with
    | none => rfl
    | some r =>
        have hr := lookupById_eq_some_id st x r hl
        simp [hr, hx.symm]

theorem lookupById_applyAction_self (env : Env) (st : List PriceAlert) (i : String)
    (u : AlertUpdate) :
    lookupById (applyAction env st i u) i =
      match env.rawUpdateAlert i u with
      | DbOutcome.ok => (lookupById st i).map (fun a => applyFields a u)
      | _ => lookupById st i := by
  unfold applyAction
  cases h : env.rawUpdateAlert i u
  · rfl
  · rfl
  · rw [lookupById_map_id_preserved (fun a => if a.id = i then applyFields a u else a)
      (fun r => by by_cases hr : r.id = i <;> simp [hr, applyFields_id])]
    cases hl : lookupById st i with
    | none => rfl
    | some r =>
        have hr := lookupById_eq_some_id st i r hl
        simp [hr]

theorem foldl_alertStoreStep_frame (env : Env) (p : ℚ) (as : List PriceAlert)
    (st : List PriceAlert) (x : String) (h : ∀ b ∈ as, b.id ≠ x) :
    lookupById (as.foldl (alertStoreStep env p) st) x = lookupById st x := by
  induction as generalizing st with
  | nil => rfl
  | cons b as ih =>
      simp only [List.foldl_cons]
      rw [ih _ (fun b' hb' => h b' (by simp [hb']))]
      exact lookupById_applyAction_ne env st b.id _ x (h b (by simp))

theorem groupStore_frame (env : Env) (m : String) (l : List PriceAlert)
    (st : List PriceAlert) (x : String) (h : ∀ b ∈ l, b.id ≠ x) :
    lookupById (groupStore env m l st) x = lookupById st x := by
  unfold groupStore
  cases hm : getMarketById env m with
  | none => rfl
  | some market => exact foldl_alertStoreStep_frame env market.current_price l st x h

theorem groupStore_notfound (env : Env) (m : String) (l : List PriceAlert)
    (st : List PriceAlert) (hm : getMarketById env m = none) :
    groupStore env m l st = st := by
  unfold groupStore
  rw [hm]

theorem foldl_groupStore_frame (env : Env) (G : List (String × List PriceAlert))
    (st : List PriceAlert) (x : String)
    (h : ∀ g ∈ G, getMarketById env g.1 = none ∨ ∀ b ∈ g.2, b.id ≠ x) :
    lookupById (G.foldl (fun st g => groupStore env g.1 g.2 st) st) x = lookupById st x := by
  induction G generalizing st with
  | nil => rfl
  | cons g G ih =>
      simp only [List.foldl_cons]
      rw [ih _ (fun g' hg' => h g' (by simp [hg']))]
      rcases h g (by simp) with hm | hb
      · rw [groupStore_notfound env g.1 g.2 st hm]
      · exact groupStore_frame env g.1 g.2 st x hb

/-- Cycle-level frame: a row whose id is only carried by active alerts of
markets the oracle cannot resolve (or by no active alert at all) is left
untouched by the cycle. -/
theorem cycleStore_frame (env : Env) (store : List PriceAlert) (x : String)
    (h : ∀ b ∈ getActiveAlerts env store, b.id = x → getMarketById env b.market_id = none) :
    lookupById (cycleStore env store) x = lookupById store x := by
  unfold cycleStore
  by_cases hl : (getActiveAlerts env store).length = 0
  · simp [hl]
  · rw [if_neg hl]
    refine foldl_groupStore_frame env _ store x ?_
    intro g hg
    by_cases hfound : getMarketById env g.1 = none
    · exact Or.inl hfound
    · refine Or.inr ?_
      intro b hb hbx
      have hkey := groupAlertsByMarket_keyed (getActiveAlerts env store) g hg b hb
      have hbmem : b ∈ getActiveAlerts env store := by
        refine (groupAlertsByMarket_flatten_perm (getActiveAlerts env store)).mem_iff.mp ?_
        rw [List.mem_flatten]
        exact ⟨g.2, List.mem_map_of_mem Prod.snd hg, hb⟩
      exact hfound (by rw [← hkey]; exact h b hbmem hbx)

theorem lookupById_of_mem_nodup (store : List PriceAlert) (a : PriceAlert)
    (hnodup : (store.map (fun b => b.id)).Nodup) (ha : a ∈ store) :
    lookupById store a.id = some a := by
  unfold lookupById
  induction store with
  | nil => simp at ha
  | cons r store ih =>
      rcases List.mem_cons.mp ha with h | h
      · subst h
        simp [List.find?_cons]
      · have hne : r.id ≠ a.id := by
          intro he
          have : a.id ∈ store.map (fun b => b.id) := List.mem_map_of_mem _ h
          rw [← he] at this
          exact (List.nodup_cons.mp (by simpa using hnodup)).1 this
        simp only [List.find?_cons, hne, decide_False]
        exact ih (List.nodup_cons.mp (by simpa using hnodup)).2 h

/-! ## Active-alert helpers and the central per-alert decomposition -/

theorem mem_getActiveAlerts (env : Env) (store : List PriceAlert) (a : PriceAlert)
    (hnf : env.listFails = false) (ha : a ∈ store) (hact : a.status = AlertStatus.active) :
    a ∈ getActiveAlerts env store := by
  unfold getActiveAlerts
  rw [hnf]
  simp only [Bool.false_eq_true, if_false, List.mem_filter]
  exact ⟨ha, by simp [hact]⟩

theorem getActiveAlerts_mem (env : Env) (store : List PriceAlert) (b : PriceAlert)
    (hb : b ∈ getActiveAlerts env store) :
    b ∈ store ∧ b.status = AlertStatus.active := by
  unfold getActiveAlerts at hb
  by_cases h : env.listFails
  · simp [h] at hb
  · simp only [h, Bool.false_eq_true, if_false, List.mem_filter] at hb
    exact ⟨hb.1, by simpa using hb.2⟩

theorem getActiveAlerts_sublist (env : Env) (store : List PriceAlert) :
    (getActiveAlerts env store).Sublist store := by
  unfold getActiveAlerts
  by_cases h : env.listFails
  · simp [h]
  · simp only [h, Bool.false_eq_true, if_false]
    exact List.filter_sublist store

theorem getActiveAlerts_ids_nodup (env : Env) (store : List PriceAlert)
    (hnodup : (store.map (fun b => b.id)).Nodup) :
    ((getActiveAlerts env store).map (fun b => b.id)).Nodup :=
  ((getActiveAlerts_sublist env store).map (fun b => b.id)).nodup hnodup

theorem ne_of_nodup_map_split {α β : Type} (f : α → β) (P Q : List α) (a : α)
    (h : ((P ++ a :: Q).map f).Nodup) :
    (∀ b ∈ P, f b ≠ f a) ∧ (∀ b ∈ Q, f b ≠ f a) := by
  rw [List.map_append, List.map_cons, List.nodup_append] at h
  obtain ⟨hP, hQ, hdisj⟩ := h
  refine ⟨?_, ?_⟩
  · intro b hb heq
    exact hdisj (List.mem_map_of_mem f hb) (by simp [heq])
  · intro b hb heq
    exact (List.nodup_cons.mp hQ).1 (by rw [← heq]; exact List.mem_map_of_mem f hb)

theorem groupEvents_found (env : Env) (m : String) (l : List PriceAlert) (mkt : Market)
    (hm : getMarketById env m = some mkt) :
    groupEvents env m l =
      Event.oracleCall m :: (l.map (fun b => alertEvents env b mkt.current_price)).flatten := by
  unfold groupEvents
  rw [hm]

theorem groupStore_found (env : Env) (m : String) (l : List PriceAlert) (mkt : Market)
    (st : List PriceAlert) (hm : getMarketById env m = some mkt) :
    groupStore env m l st = l.foldl (alertStoreStep env mkt.current_price) st := by
  unfold groupStore
  rw [hm]

theorem updatesFor_cons_oracle (m : String) (t : List Event) (x : String) :
    updatesFor (Event.oracleCall m :: t) x = updatesFor t x := by
  simp [updatesFor]

/-- Central decomposition: under a failure-free alert listing, an active
alert `a` with a unique id and a resolvable market contributes exactly its
own segment to the cycle trace, and no other segment mentions its id. -/
theorem cycleEvents_split (env : Env) (store : List PriceAlert) (a : PriceAlert) (mkt : Market)
    (hnodup : (store.map (fun b => b.id)).Nodup)
    (ha : a ∈ store) (hact : a.status = AlertStatus.active)
    (hnf : env.listFails = false)
    (hm : getMarketById env a.market_id = some mkt) :
    ∃ pre post,
      cycleEvents env store = pre ++ alertEvents env a mkt.current_price ++ post ∧
        updatesFor pre a.id = [] ∧ updatesFor post a.id = [] := by
  have haact : a ∈ getActiveAlerts env store := mem_getActiveAlerts env store a hnf ha hact
  have hactive_nodup := getActiveAlerts_ids_nodup env store hnodup
  obtain ⟨G₁, l, G₂, hG, hal⟩ := exists_group_split (getActiveAlerts env store) a haact
  obtain ⟨xs, ys, hl⟩ := List.append_of_mem hal
  have hflat_nodup :
      ((((groupAlertsByMarket (getActiveAlerts env store)).map Prod.snd).flatten).map
        (fun b => b.id)).Nodup :=
    ((groupAlertsByMarket_flatten_perm (getActiveAlerts env store)).map
      (fun b => b.id)).nodup_iff.mpr hactive_nodup
  have hPQ : (((groupAlertsByMarket (getActiveAlerts env store)).map Prod.snd).flatten) =
      ((G₁.map Prod.snd).flatten ++ xs) ++ a :: (ys ++ (G₂.map Prod.snd).flatten) := by
    rw [hG, hl]
    simp
  rw [hPQ] at hflat_nodup
  obtain ⟨hP, hQ⟩ := ne_of_nodup_map_split (fun b => b.id) _ _ a hflat_nodup
  have hG₁ : ∀ g ∈ G₁, ∀ b ∈ g.2, b.id ≠ a.id := by
    intro g hg b hb
    refine hP b (List.mem_append_left _ ?_)
    rw [List.mem_flatten]
    exact ⟨g.2, List.mem_map_of_mem Prod.snd hg, hb⟩
  have hxs : ∀ b ∈ xs, b.id ≠ a.id := fun b hb => hP b (List.mem_append_right _ hb)
  have hys : ∀ b ∈ ys, b.id ≠ a.id := fun b hb => hQ b (List.mem_append_left _ hb)
  have hG₂ : ∀ g ∈ G₂, ∀ b ∈ g.2, b.id ≠ a.id := by
    intro g hg b hb
    refine hQ b (List.mem_append_right _ ?_)
    rw [List.mem_flatten]
    exact ⟨g.2, List.mem_map_of_mem Prod.snd hg, hb⟩
  have hlen : ¬(getActiveAlerts env store).length = 0 := by
    intro h0
    rw [List.length_eq_zero] at h0
    rw [h0] at haact
    simp at haact
  refine ⟨(G₁.map (fun g => groupEvents env g.1 g.2)).flatten ++
      Event.oracleCall a.market_id ::
        (xs.map (fun b => alertEvents env b mkt.current_price)).flatten,
    (ys.map (fun b => alertEvents env b mkt.current_price)).flatten ++
      (G₂.map (fun g => groupEvents env g.1 g.2)).flatten, ?_, ?_, ?_⟩
  · unfold cycleEvents
    rw [if_neg hlen, hG]
    simp only [List.map_append, List.map_cons, List.flatten_append, List.flatten_cons]
    rw [groupEvents_found env a.market_id l mkt hm, hl]
    simp
  · rw [updatesFor_append, updatesFor_groupsEvents_nil env G₁ a.id hG₁,
      updatesFor_cons_oracle, updatesFor_alertsEvents_nil env xs mkt.current_price a.id hxs]
    rfl
  · rw [updatesFor_append, updatesFor_groupsEvents_nil env G₂ a.id hG₂,
      updatesFor_alertsEvents_nil env ys mkt.current_price a.id hys]
    rfl

/-- The cycle trace carries exactly one store update for such an alert. -/
theorem updatesFor_cycleEvents_self (env : Env) (store : List PriceAlert) (a : PriceAlert)
    (mkt : Market)
    (hnodup : (store.map (fun b => b.id)).Nodup)
    (ha : a ∈ store) (hact : a.status = AlertStatus.active)
    (hnf : env.listFails = false)
    (hm : getMarketById env a.market_id = some mkt) :
    updatesFor (cycleEvents env store) a.id = [alertUpdateOf env a mkt.current_price] := by
  obtain ⟨pre, post, heq, hpre, hpost⟩ := cycleEvents_split env store a mkt hnodup ha hact hnf hm
  rw [heq, updatesFor_append, updatesFor_append, hpre, hpost, updatesFor_alertEvents_self]
  rfl

/-- Central store pinpoint: such an alert's row after the cycle reflects
exactly its own update attempt — applied on success, unchanged on a store
failure. -/
theorem cycleStore_pinpoint (env : Env) (store : List PriceAlert) (a : PriceAlert) (mkt : Market)
    (hnodup : (store.map (fun b => b.id)).Nodup)
    (ha : a ∈ store) (hact : a.status = AlertStatus.active)
    (hnf : env.listFails = false)
    (hm : getMarketById env a.market_id = some mkt) :
    lookupById (cycleStore env store) a.id =
      some (match env.rawUpdateAlert a.id (alertUpdateOf env a mkt.current_price) with
            | DbOutcome.ok => applyFields a (alertUpdateOf env a mkt.current_price)
            | _ => a) := by
  have haact : a ∈ getActiveAlerts env store := mem_getActiveAlerts env store a hnf ha hact
  have hactive_nodup := getActiveAlerts_ids_nodup env store hnodup
  obtain ⟨G₁, l, G₂, hG, hal⟩ := exists_group_split (getActiveAlerts env store) a haact
  obtain ⟨xs, ys, hl⟩ := List.append_of_mem hal
  have hflat_nodup :
      ((((groupAlertsByMarket (getActiveAlerts env store)).map Prod.snd).flatten).map
        (fun b => b.id)).Nodup :=
    ((groupAlertsByMarket_flatten_perm (getActiveAlerts env store)).map
      (fun b => b.id)).nodup_iff.mpr hactive_nodup
  have hPQ : (((groupAlertsByMarket (getActiveAlerts env store)).map Prod.snd).flatten) =
      ((G₁.map Prod.snd).flatten ++ xs) ++ a :: (ys ++ (G₂.map Prod.snd).flatten) := by
    rw [hG, hl]
    simp
  rw [hPQ] at hflat_nodup
  obtain ⟨hP, hQ⟩ := ne_of_nodup_map_split (fun b => b.id) _ _ a hflat_nodup
  have hG₁ : ∀ g ∈ G₁, ∀ b ∈ g.2, b.id ≠ a.id := by
    intro g hg b hb
    refine hP b (List.mem_append_left _ ?_)
    rw [List.mem_flatten]
    exact ⟨g.2, List.mem_map_of_mem Prod.snd hg, hb⟩
  have hxs : ∀ b ∈ xs, b.id ≠ a.id := fun b hb => hP b (List.mem_append_right _ hb)
  have hys : ∀ b ∈ ys, b.id ≠ a.id := fun b hb => hQ b (List.mem_append_left _ hb)
  have hG₂ : ∀ g ∈ G₂, ∀ b ∈ g.2, b.id ≠ a.id := by
    intro g hg b hb
    refine hQ b (List.mem_append_right _ ?_)
    rw [List.mem_flatten]
    exact ⟨g.2, List.mem_map_of_mem Prod.snd hg, hb⟩
  have hlen : ¬(getActiveAlerts env store).length = 0 := by
    intro h0
    rw [List.length_eq_zero] at h0
    rw [h0] at haact
    simp at haact
  unfold cycleStore
  rw [if_neg hlen, hG]
  rw [List.foldl_append, List.foldl_cons]
  rw [foldl_groupStore_frame env G₂ _ a.id
    (fun g hg => Or.inr (fun b hb => hG₂ g hg b hb))]
  rw [groupStore_found env a.market_id l mkt _ hm, hl]
  rw [List.foldl_append, List.foldl_cons]
  rw [foldl_alertStoreStep_frame env mkt.current_price ys _ a.id hys]
  simp only [alertStoreStep]
  rw [lookupById_applyAction_self]
  have hbase : lookupById
      (xs.foldl (alertStoreStep env mkt.current_price)
        (G₁.foldl (fun st g => groupStore env g.1 g.2 st) store)) a.id = some a := by
    rw [foldl_alertStoreStep_frame env mkt.current_price xs _ a.id hxs]
    rw [foldl_groupStore_frame env G₁ store a.id
      (fun g hg => Or.inr (fun b hb => hG₁ g hg b hb))]
    exact lookupById_of_mem_nodup store a hnodup ha
  rw [hbase]
  cases env.rawUpdateAlert a.id (alertUpdateOf env a mkt.current_price) <;> rfl

/-! ## Remaining helpers -/

theorem updatesFor_groupEvents_notfound (env : Env) (m : String) (l : List PriceAlert)
    (x : String) (hm : getMarketById env m = none) :
    updatesFor (groupEvents env m l) x = [] := by
  unfold groupEvents
  rw [hm]
  simp [updatesFor]

/-- Trace-level frame: an id carried only by active alerts whose market
cannot be resolved (or by no active alert) receives no update event. -/
theorem updatesFor_cycleEvents_nil (env : Env) (store : List PriceAlert) (x : String)
    (h : ∀ b ∈ getActiveAlerts env store, b.id = x → getMarketById env b.market_id = none) :
    updatesFor (cycleEvents env store) x = [] := by
  unfold cycleEvents
  by_cases hl : (getActiveAlerts env store).length = 0
  · simp [hl, updatesFor]
  · rw [if_neg hl]
    have main : ∀ (G : List (String × List PriceAlert)),
        (∀ g ∈ G, getMarketById env g.1 = none ∨ ∀ b ∈ g.2, b.id ≠ x) →
        updatesFor ((G.map (fun g => groupEvents env g.1 g.2)).flatten) x = [] := by
      intro G
      induction G with
      | nil => intro _; rfl
      | cons g G ih =>
          intro hG
          simp only [List.map_cons, List.flatten_cons, updatesFor_append]
          rcases hG g (by simp) with hgm | hgb
          · rw [updatesFor_groupEvents_notfound env g.1 g.2 x hgm,
              ih (fun g' hg' => hG g' (by simp [hg']))]
            rfl
          · rw [updatesFor_groupEvents_nil env g.1 g.2 x hgb,
              ih (fun g' hg' => hG g' (by simp [hg']))]
            rfl
    refine main _ ?_
    intro g hg
    by_cases hfound : getMarketById env g.1 = none
    · exact Or.inl hfound
    · refine Or.inr ?_
      intro b hb hbx
      have hkey := groupAlertsByMarket_keyed (getActiveAlerts env store) g hg b hb
      have hbmem : b ∈ getActiveAlerts env store := by
        refine (groupAlertsByMarket_flatten_perm (getActiveAlerts env store)).mem_iff.mp ?_
        rw [List.mem_flatten]
        exact ⟨g.2, List.mem_map_of_mem Prod.snd hg, hb⟩
      exact hfound (by rw [← hkey]; exact h b hbmem hbx)

theorem lookupById_mem (store : List PriceAlert) (x : String) (r : PriceAlert)
    (h : lookupById store x = some r) : r ∈ store :=
  List.mem_of_find?_eq_some h

theorem applyAction_map_id (env : Env) (st : List PriceAlert) (i : String) (u : AlertUpdate) :
    (applyAction env st i u).map (fun b => b.id) = st.map (fun b => b.id) := by
  unfold applyAction
  cases env.rawUpdateAlert i u
  · rfl
  · rfl
  · rw [List.map_map]
    refine List.map_congr_left ?_
    intro b _
    by_cases h : b.id = i <;> simp [h, applyFields_id]

theorem foldl_alertStoreStep_map_id (env : Env) (p : ℚ) (as : List PriceAlert)
    (st : List PriceAlert) :
    ((as.foldl (alertStoreStep env p) st).map (fun b => b.id)) = st.map (fun b => b.id) := by
  induction as generalizing st with
  | nil => rfl
  | cons b as ih =>
      simp only [List.foldl_cons]
      rw [ih]
      exact applyAction_map_id env st b.id _

theorem groupStore_map_id (env : Env) (m : String) (l : List PriceAlert)
    (st : List PriceAlert) :
    ((groupStore env m l st).map (fun b => b.id)) = st.map (fun b => b.id) := by
  unfold groupStore
  cases getMarketById env m with
  | none => rfl
  | some market => exact foldl_alertStoreStep_map_id env market.current_price l st

theorem foldl_groupStore_map_id (env : Env) (G : List (String × List PriceAlert))
    (st : List PriceAlert) :
    ((G.foldl (fun st g => groupStore env g.1 g.2 st) st).map (fun b => b.id)) =
      st.map (fun b => b.id) := by
  induction G generalizing st with
  | nil => rfl
  | cons g G ih =>
      simp only [List.foldl_cons]
      rw [ih, groupStore_map_id]

theorem cycleStore_map_id (env : Env) (store : List PriceAlert) :
    ((cycleStore env store).map (fun b => b.id)) = store.map (fun b => b.id) := by
  unfold cycleStore
  by_cases hl : (getActiveAlerts env store).length = 0
  · simp [hl]
  · rw [if_neg hl]
    exact foldl_groupStore_map_id env _ store

theorem notificationEvents_noUser (env : Env) (a : PriceAlert) (p : ℚ)
    (h : getUserByWallet env a.user_wallet = none) :
    notificationEvents env a p = [Event.userFetch a.user_wallet] := by
  unfold notificationEvents
  rw [h]

theorem notificationEvents_noEmail (env : Env) (a : PriceAlert) (p : ℚ) (u : User)
    (h : getUserByWallet env a.user_wallet = some u) (he : u.email = none) :
    notificationEvents env a p = [Event.userFetch a.user_wallet] := by
  unfold notificationEvents
  rw [h]
  simp [he]

theorem notificationEvents_unverified (env : Env) (a : PriceAlert) (p : ℚ) (u : User)
    (address : String) (h : getUserByWallet env a.user_wallet = some u)
    (he : u.email = some address) (hv : u.email_verified = false) :
    notificationEvents env a p = [Event.userFetch a.user_wallet] := by
  unfold notificationEvents
  rw [h]
  simp [he, hv]

theorem notificationEvents_verified (env : Env) (a : PriceAlert) (p : ℚ) (u : User)
    (address : String) (h : getUserByWallet env a.user_wallet = some u)
    (he : u.email = some address) (hv : u.email_verified = true) :
    notificationEvents env a p =
      [Event.userFetch a.user_wallet, Event.emailAttempt address (payloadOf a p)] := by
  unfold notificationEvents
  rw [h]
  simp [he, hv]

theorem alertEvents_triggered (env : Env) (a : PriceAlert) (p : ℚ)
    (ht : shouldTriggerAlert a p = true) :
    alertEvents env a p =
      Event.storeUpdate a.id (triggeredUpdate env.now) :: notificationEvents env a p := by
  unfold alertEvents
  rw [ht]
  simp

theorem alertEvents_not_triggered (env : Env) (a : PriceAlert) (p : ℚ)
    (ht : shouldTriggerAlert a p = false) :
    alertEvents env a p = [Event.storeUpdate a.id (lastCheckedUpdate env.now)] := by
  unfold alertEvents
  rw [ht]
  simp

theorem alertUpdateOf_triggered (env : Env) (a : PriceAlert) (p : ℚ)
    (ht : shouldTriggerAlert a p = true) :
    alertUpdateOf env a p = triggeredUpdate env.now := by
  unfold alertUpdateOf
  rw [ht]
  simp

theorem alertUpdateOf_not_triggered (env : Env) (a : PriceAlert) (p : ℚ)
    (ht : shouldTriggerAlert a p = false) :
    alertUpdateOf env a p = lastCheckedUpdate env.now := by
  unfold alertUpdateOf
  rw [ht]
  simp

theorem schedStep_keeps_interval (s : CheckerState) (e : SchedEvent)
    (he : e ≠ SchedEvent.stopCall) (h : s.hasInterval = true) :
    (schedStep s e).hasInterval = true := by
  cases e with
  | startCall =>
      unfold schedStep start
      by_cases hr : s.isRunning <;> simp [hr, h]
  | stopCall => exact absurd rfl he
  | timerTick => exact h

theorem schedRun_keeps_interval (s : CheckerState) (es : List SchedEvent)
    (hes : SchedEvent.stopCall ∉ es) (h : s.hasInterval = true) :
    (schedRun s es).hasInterval = true := by
  induction es generalizing s with
  | nil => exact h
  | cons e es ih =>
      unfold schedRun at ih ⊢
      rw [List.foldl_cons]
      refine ih _ (fun hmem => hes (by simp [hmem])) ?_
      exact schedStep_keeps_interval s e (fun he => hes (by simp [he])) h

theorem checkAlerts_events (env : Env) (store : List PriceAlert) :
    (checkAlerts env store).events = cycleEvents env store := by
  rw [checkAlerts_eq]

theorem checkAlerts_store (env : Env) (store : List PriceAlert) :
    (checkAlerts env store).store = cycleStore env store := by
  rw [checkAlerts_eq]

theorem eq_of_same_id (store : List PriceAlert) (a b : PriceAlert)
    (hnodup : (store.map (fun c => c.id)).Nodup) (ha : a ∈ store) (hb : b ∈ store)
    (hid : b.id = a.id) : b = a :=
  List.inj_on_of_nodup_map hnodup hb ha hid

/-! ## Concrete fixtures used by the witness theorems -/

/-- A concrete active alert (`above 0.5` on market `mkt-1`). -/
def alertW : PriceAlert :=
  { id := "alert-1", user_wallet := "0xabc", market_id := "mkt-1"
    market_question := "Will it rain?", target_price := 1 / 2, condition := "above"
    status := AlertStatus.active, created_at := "2026-01-01T00:00:00Z"
    triggered_at := none, last_checked_at := none, notification_sent := false, notes := none }

/-- A concrete user with a verified email. -/
def userW : User :=
  { wallet_address := "0xabc", email := some "u@example.com", email_verified := true }

/-- A concrete market snapshot at price 0.6. -/
def mktW : Market := { question := "Will it rain?", current_price := 3 / 5 }

/-- A fully successful environment. -/
def envW : Env :=
  { now := "2026-01-02T00:00:00Z", listFails := false
    getMarketRaw := fun _ => Except.ok mktW
    rawUpdateAlert := fun _ _ => DbOutcome.ok
    getUserRaw := fun _ => Except.ok (some userW)
    sendEmailRaw := fun _ _ => Except.ok true }

/-- A concrete alert already in the terminal `triggered` status. -/
def alertT : PriceAlert :=
  { alertW with id := "alert-2", status := AlertStatus.triggered }

/-- A concrete market snapshot at price 0.4 (below `alertW`'s target). -/
def mktLow : Market := { question := "Will it rain?", current_price := 2 / 5 }

/-- Environment whose oracle cannot resolve any market. -/
def envN : Env := { envW with getMarketRaw := fun _ => Except.error () }

/-- Environment whose oracle reports the low price. -/
def envL : Env := { envW with getMarketRaw := fun _ => Except.ok mktLow }

/-- Environment whose store has no user record for any wallet. -/
def envU : Env := { envW with getUserRaw := fun _ => Except.ok none }

/-- Environment where the store mutation and the notifier throw and the
user lookup throws — every raw failure mode at once. -/
def envT : Env :=
  { envW with
    rawUpdateAlert := fun _ _ => DbOutcome.thrown
    getUserRaw := fun _ => Except.error ()
    sendEmailRaw := fun _ _ => Except.error () }

/-- Environment whose store reports every mutation as failed (`null`
result, no row change). -/
def envE : Env := { envW with rawUpdateAlert := fun _ _ => DbOutcome.errored }

/-! ## Claim theorems -/

/-- C1: for target and current prices in `[0,1]`, the pure
trigger-evaluation function returns true for `above` iff `c ≥ t`, for
`below` iff `c ≤ t`, for `equals` iff `|c − t| ≤ 0.01`, and returns
false for every condition value outside `{above, below, equals}`. -/
theorem c1_trigger_evaluation (a : PriceAlert) (c : ℚ)
    (ht0 : 0 ≤ a.target_price) (ht1 : a.target_price ≤ 1)
    (hc0 : 0 ≤ c) (hc1 : c ≤ 1) :
    (a.condition = "above" → (shouldTriggerAlert a c = true ↔ c ≥ a.target_price)) ∧
    (a.condition = "below" → (shouldTriggerAlert a c = true ↔ c ≤ a.target_price)) ∧
    (a.condition = "equals" → (shouldTriggerAlert a c = true ↔ |c - a.target_price| ≤ 1 / 100)) ∧
    (a.condition ≠ "above" → a.condition ≠ "below" → a.condition ≠ "equals" →
      shouldTriggerAlert a c = false) := by
  unfold shouldTriggerAlert
  refine ⟨?_, ?_, ?_, ?_⟩
  · intro h
    simp [h]
  · intro h
    simp [h]
  · intro h
    simp [h]
  · intro h1 h2 h3
    simp [h1, h2, h3]

theorem c1_witness :
    ((0 : ℚ) ≤ alertW.target_price ∧ alertW.target_price ≤ 1 ∧
      (0 : ℚ) ≤ 3 / 5 ∧ (3 : ℚ) / 5 ≤ 1) ∧
    ((alertW.condition = "above" →
        (shouldTriggerAlert alertW (3 / 5) = true ↔ (3 : ℚ) / 5 ≥ alertW.target_price)) ∧
      (alertW.condition = "below" →
        (shouldTriggerAlert alertW (3 / 5) = true ↔ (3 : ℚ) / 5 ≤ alertW.target_price)) ∧
      (alertW.condition = "equals" →
        (shouldTriggerAlert alertW (3 / 5) = true ↔
          |(3 : ℚ) / 5 - alertW.target_price| ≤ 1 / 100)) ∧
      (alertW.condition ≠ "above" → alertW.condition ≠ "below" → alertW.condition ≠ "equals" →
        shouldTriggerAlert alertW (3 / 5) = false)) :=
  ⟨⟨by norm_num [alertW], by norm_num [alertW], by norm_num, by norm_num⟩,
    c1_trigger_evaluation alertW (3 / 5) (by norm_num [alertW]) (by norm_num [alertW])
      (by norm_num) (by norm_num)⟩

/-- C9 (counterexample): `getStatus` does not expose fields named
`intervalMs` and `description`; its keys are `running`, `interval`,
`message`. -/
theorem c9_counterexample :
    ("intervalMs" ∉ (getStatus ⟨false, false⟩).map Prod.fst) ∧
    ("description" ∉ (getStatus ⟨false, false⟩).map Prod.fst) ∧
    (getStatus ⟨false, false⟩).map Prod.fst = ["running", "interval", "message"] := by
  decide

/-- C9 (amended): `getStatus` returns an object with exactly the fields
`{running, interval, message}`, where `running` is true iff the checker
is in the running state and `interval` is the fixed 30-second poll
interval expressed in milliseconds. -/
theorem c9_getStatus_fields (s : CheckerState) :
    (getStatus s).map Prod.fst = ["running", "interval", "message"] ∧
    (getStatus s).lookup "running" = some (StatusValue.bool s.isRunning) ∧
    (getStatus s).lookup "interval" = some (StatusValue.num 30000) := by
  refine ⟨rfl, ?_, ?_⟩ <;> simp [getStatus, List.lookup, POLL_INTERVAL]

theorem c9_witness :
    (getStatus ⟨true, true⟩).map Prod.fst = ["running", "interval", "message"] ∧
    (getStatus ⟨true, true⟩).lookup "running" = some (StatusValue.bool true) ∧
    (getStatus ⟨true, true⟩).lookup "interval" = some (StatusValue.num 30000) :=
  c9_getStatus_fields ⟨true, true⟩

/-- C4: a cycle over N active alerts spanning M distinct markets groups
the alerts into exactly one bucket per distinct market — keyed by each
alert's own market id, with no alert lost or duplicated — and issues
exactly one oracle call per bucket, hence at most (exactly) M oracle
calls. -/
theorem c4_grouping_partition (env : Env) (store : List PriceAlert) :
    (((groupAlertsByMarket (getActiveAlerts env store)).map Prod.snd).flatten.Perm
      (getActiveAlerts env store)) ∧
    (∀ g ∈ groupAlertsByMarket (getActiveAlerts env store), ∀ a ∈ g.2, a.market_id = g.1) ∧
    oracleCallsOf (checkAlerts env store).events =
      (groupAlertsByMarket (getActiveAlerts env store)).map Prod.fst ∧
    ((groupAlertsByMarket (getActiveAlerts env store)).map Prod.fst).Nodup ∧
    ((groupAlertsByMarket (getActiveAlerts env store)).map Prod.fst).length =
      ((getActiveAlerts env store).map (fun a => a.market_id)).dedup.length := by
  refine ⟨groupAlertsByMarket_flatten_perm _, groupAlertsByMarket_keyed _, ?_,
    groupAlertsByMarket_keys_nodup _, (groupAlertsByMarket_keys_perm_dedup _).length_eq⟩
  rw [checkAlerts_eq]
  exact oracleCallsOf_cycleEvents env store

theorem c4_witness :
    (((groupAlertsByMarket (getActiveAlerts envW [alertW])).map Prod.snd).flatten.Perm
      (getActiveAlerts envW [alertW])) ∧
    (∀ g ∈ groupAlertsByMarket (getActiveAlerts envW [alertW]), ∀ a ∈ g.2,
      a.market_id = g.1) ∧
    oracleCallsOf (checkAlerts envW [alertW]).events =
      (groupAlertsByMarket (getActiveAlerts envW [alertW])).map Prod.fst ∧
    ((groupAlertsByMarket (getActiveAlerts envW [alertW])).map Prod.fst).Nodup ∧
    ((groupAlertsByMarket (getActiveAlerts envW [alertW])).map Prod.fst).length =
      ((getActiveAlerts envW [alertW]).map (fun a => a.market_id)).dedup.length :=
  c4_grouping_partition envW [alertW]

/-- C2: for an alert detected as triggered, the cycle issues exactly one
store update for it — status `triggered`, triggered and last-checked
timestamps set to now, notification-sent flag true — the update precedes
the alert's notification attempt, and no later update (in particular none
caused by a notifier failure, over every notifier outcome `env` allows)
touches the alert again in that cycle. -/
theorem c2_trigger_transaction (env : Env) (store : List PriceAlert) (a : PriceAlert)
    (mkt : Market)
    (hnodup : (store.map (fun b => b.id)).Nodup)
    (ha : a ∈ store) (hact : a.status = AlertStatus.active)
    (hnf : env.listFails = false)
    (hm : getMarketById env a.market_id = some mkt)
    (htrig : shouldTriggerAlert a mkt.current_price = true) :
    updatesFor (checkAlerts env store).events a.id = [triggeredUpdate env.now] ∧
    triggeredUpdate env.now =
      { status := some AlertStatus.triggered, triggered_at := some env.now
        last_checked_at := some env.now, notification_sent := some true } ∧
    ∃ pre post, (checkAlerts env store).events =
        pre ++ (Event.storeUpdate a.id (triggeredUpdate env.now) ::
          notificationEvents env a mkt.current_price) ++ post ∧
      updatesFor pre a.id = [] ∧
      updatesFor (notificationEvents env a mkt.current_price) a.id = [] ∧
      updatesFor post a.id = [] := by
  refine ⟨?_, rfl, ?_⟩
  · rw [checkAlerts_events,
      updatesFor_cycleEvents_self env store a mkt hnodup ha hact hnf hm,
      alertUpdateOf_triggered env a _ htrig]
  · obtain ⟨pre, post, heq, hpre, hpost⟩ :=
      cycleEvents_split env store a mkt hnodup ha hact hnf hm
    rw [alertEvents_triggered env a _ htrig] at heq
    rw [checkAlerts_events]
    exact ⟨pre, post, heq, hpre, updatesFor_notificationEvents env a _ a.id, hpost⟩

theorem c2_witness :
    updatesFor (checkAlerts envW [alertW]).events alertW.id = [triggeredUpdate envW.now] ∧
    triggeredUpdate envW.now =
      { status := some AlertStatus.triggered, triggered_at := some envW.now
        last_checked_at := some envW.now, notification_sent := some true } ∧
    ∃ pre post, (checkAlerts envW [alertW]).events =
        pre ++ (Event.storeUpdate alertW.id (triggeredUpdate envW.now) ::
          notificationEvents envW alertW mktW.current_price) ++ post ∧
      updatesFor pre alertW.id = [] ∧
      updatesFor (notificationEvents envW alertW mktW.current_price) alertW.id = [] ∧
      updatesFor post alertW.id = [] :=
  c2_trigger_transaction envW [alertW] alertW mktW (by simp) (by simp) rfl rfl rfl
    (by norm_num [shouldTriggerAlert, alertW, mktW])

/-- C3: an alert in a terminal status is never fetched by a cycle, never
receives an update event, its row is left unchanged, and it is not
fetched by the following cycle either — once triggered (or cancelled) it
can never trigger again. -/
theorem c3_terminal_untouched (env : Env) (store : List PriceAlert) (a : PriceAlert)
    (hnodup : (store.map (fun b => b.id)).Nodup) (ha : a ∈ store)
    (hterm : a.status = AlertStatus.triggered ∨ a.status = AlertStatus.cancelled) :
    a ∉ getActiveAlerts env store ∧
    updatesFor (checkAlerts env store).events a.id = [] ∧
    lookupById (checkAlerts env store).store a.id = some a ∧
    a ∉ getActiveAlerts env (checkAlerts env store).store := by
  have hnotact : a.status ≠ AlertStatus.active := by
    rcases hterm with h | h <;> simp [h]
  have hno : ∀ b ∈ getActiveAlerts env store, b.id = a.id →
      getMarketById env b.market_id = none := by
    intro b hb hid
    have hbst := getActiveAlerts_mem env store b hb
    have hba : b = a := eq_of_same_id store a b hnodup ha hbst.1 hid
    exact absurd (hba ▸ hbst.2) hnotact
  refine ⟨?_, ?_, ?_, ?_⟩
  · intro h
    exact hnotact (getActiveAlerts_mem env store a h).2
  · rw [checkAlerts_events]
    exact updatesFor_cycleEvents_nil env store a.id hno
  · rw [checkAlerts_store, cycleStore_frame env store a.id hno]
    exact lookupById_of_mem_nodup store a hnodup ha
  · intro h
    exact hnotact (getActiveAlerts_mem env _ a h).2

theorem c3_witness :
    alertT ∉ getActiveAlerts envW [alertT] ∧
    updatesFor (checkAlerts envW [alertT]).events alertT.id = [] ∧
    lookupById (checkAlerts envW [alertT]).store alertT.id = some alertT ∧
    alertT ∉ getActiveAlerts envW (checkAlerts envW [alertT]).store :=
  c3_terminal_untouched envW [alertT] alertT (by simp) (by simp) (Or.inl rfl)

/-- C5: when the oracle cannot resolve a market, no alert of that market
receives an update event or a row change in that cycle, while every other
market group still receives its oracle call and every active alert of a
resolvable market still receives exactly its own update. -/
theorem c5_notfound_group_skipped (env : Env) (store : List PriceAlert) (m : String)
    (hnodup : (store.map (fun b => b.id)).Nodup)
    (hnf : env.listFails = false)
    (hm : getMarketById env m = none) :
    (∀ a ∈ store, a.market_id = m →
      updatesFor (checkAlerts env store).events a.id = [] ∧
      lookupById (checkAlerts env store).store a.id = some a) ∧
    (∀ m2, m2 ∈ (getActiveAlerts env store).map (fun b => b.market_id) →
      Event.oracleCall m2 ∈ (checkAlerts env store).events) ∧
    (∀ b ∈ store, b.status = AlertStatus.active →
      ∀ mkt2, getMarketById env b.market_id = some mkt2 →
      updatesFor (checkAlerts env store).events b.id =
        [alertUpdateOf env b mkt2.current_price]) := by
  refine ⟨?_, ?_, ?_⟩
  · intro a ha ham
    have hno : ∀ b ∈ getActiveAlerts env store, b.id = a.id →
        getMarketById env b.market_id = none := by
      intro b hb hid
      have hbst := getActiveAlerts_mem env store b hb
      have hba : b = a := eq_of_same_id store a b hnodup ha hbst.1 hid
      rw [hba, ham]
      exact hm
    refine ⟨?_, ?_⟩
    · rw [checkAlerts_events]
      exact updatesFor_cycleEvents_nil env store a.id hno
    · rw [checkAlerts_store, cycleStore_frame env store a.id hno]
      exact lookupById_of_mem_nodup store a hnodup ha
  · intro m2 hm2
    rw [checkAlerts_events]
    apply mem_of_mem_oracleCallsOf
    rw [oracleCallsOf_cycleEvents]
    exact (groupAlertsByMarket_keys_mem (getActiveAlerts env store) m2).mpr hm2
  · intro b hb hbact mkt2 hbm
    rw [checkAlerts_events]
    exact updatesFor_cycleEvents_self env store b mkt2 hnodup hb hbact hnf hbm

theorem c5_witness :
    (∀ a ∈ [alertW], a.market_id = "mkt-1" →
      updatesFor (checkAlerts envN [alertW]).events a.id = [] ∧
      lookupById (checkAlerts envN [alertW]).store a.id = some a) ∧
    (∀ m2, m2 ∈ (getActiveAlerts envN [alertW]).map (fun b => b.market_id) →
      Event.oracleCall m2 ∈ (checkAlerts envN [alertW]).events) ∧
    (∀ b ∈ [alertW], b.status = AlertStatus.active →
      ∀ mkt2, getMarketById envN b.market_id = some mkt2 →
      updatesFor (checkAlerts envN [alertW]).events b.id =
        [alertUpdateOf envN b mkt2.current_price]) :=
  c5_notfound_group_skipped envN [alertW] "mkt-1" (by simp) rfl rfl

/-- C6: an active alert whose condition does not trigger receives exactly
one update event carrying only `last_checked_at`, and (when the store
accepts the update) its row afterwards differs from the original in the
`last_checked_at` field alone. -/
theorem c6_no_trigger_only_last_checked (env : Env) (store : List PriceAlert) (a : PriceAlert)
    (mkt : Market)
    (hnodup : (store.map (fun b => b.id)).Nodup)
    (ha : a ∈ store) (hact : a.status = AlertStatus.active)
    (hnf : env.listFails = false)
    (hm : getMarketById env a.market_id = some mkt)
    (htrig : shouldTriggerAlert a mkt.current_price = false)
    (hok : env.rawUpdateAlert a.id (lastCheckedUpdate env.now) = DbOutcome.ok) :
    updatesFor (checkAlerts env store).events a.id = [lastCheckedUpdate env.now] ∧
    lastCheckedUpdate env.now =
      { status := none, triggered_at := none, last_checked_at := some env.now
        notification_sent := none } ∧
    lookupById (checkAlerts env store).store a.id =
      some { a with last_checked_at := some env.now } := by
  refine ⟨?_, rfl, ?_⟩
  · rw [checkAlerts_events,
      updatesFor_cycleEvents_self env store a mkt hnodup ha hact hnf hm,
      alertUpdateOf_not_triggered env a _ htrig]
  · rw [checkAlerts_store, cycleStore_pinpoint env store a mkt hnodup ha hact hnf hm,
      alertUpdateOf_not_triggered env a _ htrig, hok]
    rfl

theorem c6_witness :
    updatesFor (checkAlerts envL [alertW]).events alertW.id = [lastCheckedUpdate envL.now] ∧
    lastCheckedUpdate envL.now =
      { status := none, triggered_at := none, last_checked_at := some envL.now
        notification_sent := none } ∧
    lookupById (checkAlerts envL [alertW]).store alertW.id =
      some { alertW with last_checked_at := some envL.now } :=
  c6_no_trigger_only_last_checked envL [alertW] alertW mktLow (by simp) (by simp) rfl rfl rfl
    (by norm_num [shouldTriggerAlert, alertW, mktLow]) rfl

/-- C7: when the owner record is missing, has no contact address, or the
address is unverified, a triggering alert still receives its single
`triggered` update (notification-sent flag included), its notification
processing stops at the user lookup, and the notifier send is never
reached for it. -/
theorem c7_unverified_contact_silent (env : Env) (store : List PriceAlert) (a : PriceAlert)
    (mkt : Market)
    (hnodup : (store.map (fun b => b.id)).Nodup)
    (ha : a ∈ store) (hact : a.status = AlertStatus.active)
    (hnf : env.listFails = false)
    (hm : getMarketById env a.market_id = some mkt)
    (htrig : shouldTriggerAlert a mkt.current_price = true)
    (huser : getUserByWallet env a.user_wallet = none ∨
      ∃ u, getUserByWallet env a.user_wallet = some u ∧
        (u.email = none ∨ u.email_verified = false)) :
    updatesFor (checkAlerts env store).events a.id = [triggeredUpdate env.now] ∧
    notificationEvents env a mkt.current_price = [Event.userFetch a.user_wallet] ∧
    ∃ pre post, (checkAlerts env store).events =
      pre ++ [Event.storeUpdate a.id (triggeredUpdate env.now),
        Event.userFetch a.user_wallet] ++ post := by
  have hnotif : notificationEvents env a mkt.current_price = [Event.userFetch a.user_wallet] := by
    rcases huser with h | ⟨u, hu, he⟩
    · exact notificationEvents_noUser env a _ h
    · rcases he with he | hv
      · exact notificationEvents_noEmail env a _ u hu he
      · cases hemail : u.email with
        | none => exact notificationEvents_noEmail env a _ u hu hemail
        | some addr => exact notificationEvents_unverified env a _ u addr hu hemail hv
  refine ⟨?_, hnotif, ?_⟩
  · rw [checkAlerts_events,
      updatesFor_cycleEvents_self env store a mkt hnodup ha hact hnf hm,
      alertUpdateOf_triggered env a _ htrig]
  · obtain ⟨pre, post, heq, _, _⟩ :=
      cycleEvents_split env store a mkt hnodup ha hact hnf hm
    rw [alertEvents_triggered env a _ htrig, hnotif] at heq
    rw [checkAlerts_events]
    exact ⟨pre, post, heq⟩

theorem c7_witness :
    updatesFor (checkAlerts envU [alertW]).events alertW.id = [triggeredUpdate envU.now] ∧
    notificationEvents envU alertW mktW.current_price = [Event.userFetch alertW.user_wallet] ∧
    ∃ pre post, (checkAlerts envU [alertW]).events =
      pre ++ [Event.storeUpdate alertW.id (triggeredUpdate envU.now),
        Event.userFetch alertW.user_wallet] ++ post :=
  c7_unverified_contact_silent envU [alertW] alertW mktW (by simp) (by simp) rfl rfl rfl
    (by norm_num [shouldTriggerAlert, alertW, mktW]) (Or.inl rfl)

/-- C8: over every environment — including ones where any collaborator
call throws — every market group still receives its oracle call, every
active alert of a resolvable market still receives exactly its own update
attempt, a timer tick never changes the scheduler state, and a run
without an explicit `stop()` never disarms the recurring timer. -/
theorem c8_failure_isolation (env : Env) (store : List PriceAlert)
    (hnodup : (store.map (fun b => b.id)).Nodup)
    (hnf : env.listFails = false) :
    (∀ m, m ∈ (getActiveAlerts env store).map (fun b => b.market_id) →
      Event.oracleCall m ∈ (checkAlerts env store).events) ∧
    (∀ a mkt, a ∈ store → a.status = AlertStatus.active →
      getMarketById env a.market_id = some mkt →
      updatesFor (checkAlerts env store).events a.id =
        [alertUpdateOf env a mkt.current_price]) ∧
    (∀ s, schedStep s SchedEvent.timerTick = s) ∧
    (∀ s es, SchedEvent.stopCall ∉ es → s.hasInterval = true →
      (schedRun s es).hasInterval = true) := by
  refine ⟨?_, ?_, fun s => rfl, fun s es hes h => schedRun_keeps_interval s es hes h⟩
  · intro m hm2
    rw [checkAlerts_events]
    apply mem_of_mem_oracleCallsOf
    rw [oracleCallsOf_cycleEvents]
    exact (groupAlertsByMarket_keys_mem (getActiveAlerts env store) m).mpr hm2
  · intro a mkt ha hact hm
    rw [checkAlerts_events]
    exact updatesFor_cycleEvents_self env store a mkt hnodup ha hact hnf hm

theorem c8_witness :
    (∀ m, m ∈ (getActiveAlerts envT [alertW]).map (fun b => b.market_id) →
      Event.oracleCall m ∈ (checkAlerts envT [alertW]).events) ∧
    (∀ a mkt, a ∈ [alertW] → a.status = AlertStatus.active →
      getMarketById envT a.market_id = some mkt →
      updatesFor (checkAlerts envT [alertW]).events a.id =
        [alertUpdateOf envT a mkt.current_price]) ∧
    (∀ s, schedStep s SchedEvent.timerTick = s) ∧
    (∀ s es, SchedEvent.stopCall ∉ es → s.hasInterval = true →
      (schedRun s es).hasInterval = true) :=
  c8_failure_isolation envT [alertW] (by simp) rfl

/-- C10: if the store reports the `triggered` update as failed (a `null`
result, not an exception), the checker still attempts the notification
for the alert, the row keeps its `active` status, and the next cycle
triggers and notifies the same alert again. -/
theorem c10_update_null_still_notifies (env : Env) (store : List PriceAlert) (a : PriceAlert)
    (mkt : Market) (u : User) (addr : String)
    (hnodup : (store.map (fun b => b.id)).Nodup)
    (ha : a ∈ store) (hact : a.status = AlertStatus.active)
    (hnf : env.listFails = false)
    (hm : getMarketById env a.market_id = some mkt)
    (htrig : shouldTriggerAlert a mkt.current_price = true)
    (hfail : env.rawUpdateAlert a.id (triggeredUpdate env.now) = DbOutcome.errored)
    (hu : getUserByWallet env a.user_wallet = some u)
    (he : u.email = some addr) (hv : u.email_verified = true) :
    Event.emailAttempt addr (payloadOf a mkt.current_price) ∈ (checkAlerts env store).events ∧
    lookupById (checkAlerts env store).store a.id = some a ∧
    updatesFor (checkAlerts env (checkAlerts env store).store).events a.id =
      [triggeredUpdate env.now] ∧
    Event.emailAttempt addr (payloadOf a mkt.current_price) ∈
      (checkAlerts env (checkAlerts env store).store).events := by
  have hmemgen : ∀ st : List PriceAlert, (st.map (fun b => b.id)).Nodup → a ∈ st →
      Event.emailAttempt addr (payloadOf a mkt.current_price) ∈ cycleEvents env st := by
    intro st hn hast
    obtain ⟨pre, post, heq, _, _⟩ := cycleEvents_split env st a mkt hn hast hact hnf hm
    rw [heq, alertEvents_triggered env a _ htrig,
      notificationEvents_verified env a _ u addr hu he hv]
    simp
  have hlk : lookupById (cycleStore env store) a.id = some a := by
    rw [cycleStore_pinpoint env store a mkt hnodup ha hact hnf hm,
      alertUpdateOf_triggered env a _ htrig, hfail]
  have hnodup2 : ((cycleStore env store).map (fun b => b.id)).Nodup := by
    rw [cycleStore_map_id]
    exact hnodup
  have ha2 : a ∈ cycleStore env store := lookupById_mem _ _ _ hlk
  refine ⟨?_, ?_, ?_, ?_⟩
  · rw [checkAlerts_events]
    exact hmemgen store hnodup ha
  · rw [checkAlerts_store]
    exact hlk
  · rw [checkAlerts_store, checkAlerts_events,
      updatesFor_cycleEvents_self env (cycleStore env store) a mkt hnodup2 ha2 hact hnf hm,
      alertUpdateOf_triggered env a _ htrig]
  · rw [checkAlerts_store, checkAlerts_events]
    exact hmemgen _ hnodup2 ha2

theorem c10_witness :
    Event.emailAttempt "u@example.com" (payloadOf alertW mktW.current_price) ∈
      (checkAlerts envE [alertW]).events ∧
    lookupById (checkAlerts envE [alertW]).store alertW.id = some alertW ∧
    updatesFor (checkAlerts envE (checkAlerts envE [alertW]).store).events alertW.id =
      [triggeredUpdate envE.now] ∧
    Event.emailAttempt "u@example.com" (payloadOf alertW mktW.current_price) ∈
      (checkAlerts envE (checkAlerts envE [alertW]).store).events :=
  c10_update_null_still_notifies envE [alertW] alertW mktW userW "u@example.com"
    (by simp) (by simp) rfl rfl rfl (by norm_num [shouldTriggerAlert, alertW, mktW])
    rfl rfl rfl rfl

end Caster
